import Mathlib

/-!
Verification development for the `sleepless-agent` web UI module
(`src/sleepless_agent/interfaces/web_ui/app.py`).

The module is shallowly embedded: path handling (`pathlib`-style joining
and resolution), the sandbox containment check `is_path_safe`, the
workspace file-service HTTP handlers (`browse_files`, `read_file`,
`write_file`, `create_folder`, `delete_path`), the Basic-auth middleware
`BasicAuthMiddleware.dispatch`, and the daemon supervisor
(`is_daemon_running`, `start_agent`, `stop_agent`).

Modelling conventions:
* Absolute filesystem paths are lists of name components (the components
  of a POSIX path below `/`).  `pathlib.Path.resolve` is modelled
  lexically (collapsing `.`/`..`/empty components); symlink resolution is
  out of scope, matching the spec's stated non-goal.
* The filesystem is an association list from absolute paths to entries
  (UTF-8 text files carrying their content, or directories); a later
  binding for the same path shadows earlier ones.
* The OS process table is a list of `(pid, cmdline)` records; the pid
  file and worker stderr log are optional strings.
* Real time (the grace-interval sleeps) is modelled by passing the world
  as it is observed after each suspension point explicitly.
-/

set_option autoImplicit false

namespace SleeplessAgent

/-- An absolute POSIX path, as its list of name components below `/`. -/
abbrev AbsPath := List String

/-! ## Generic list/string helpers (executable, kernel-reducible) -/

/-- Boolean list-prefix test (used for `Path.is_relative_to` on resolved
absolute paths and for subtree membership in `rmtree`). -/
def listPre {α : Type} [DecidableEq α] : List α → List α → Bool
  | [], _ => true
  | _ :: _, [] => false
  | a :: as, b :: bs => a = b && listPre as bs

/-- Does `pat` occur at the head of `l`? -/
def subAt {α : Type} [DecidableEq α] : List α → List α → Bool
  | [], _ => true
  | _ :: _, [] => false
  | a :: as, b :: bs => a = b && subAt as bs

/-- Does `pat` occur anywhere in `l`?  (Python's `in` on strings.) -/
def hasSub {α : Type} [DecidableEq α] (pat : List α) : List α → Bool
  | [] => pat.isEmpty
  | b :: bs => subAt pat (b :: bs) || hasSub pat bs

/-- Python `pat in s` (substring containment). -/
def strContains (s pat : String) : Bool := hasSub pat.data s.data

/-- Python `s.startswith(pat)`. -/
def startsWithStr (s pat : String) : Bool := listPre pat.data s.data

/-- Python `s.endswith(pat)`. -/
def endsWithStr (s pat : String) : Bool := listPre pat.data.reverse s.data.reverse

/-- Drop the first `n` characters of a string (Python slicing `s[n:]`). -/
def dropStr (n : Nat) (s : String) : String := ⟨s.data.drop n⟩

/-- Python whitespace test for `str.strip`. -/
def isWs (c : Char) : Bool := c = ' ' || c = '\t' || c = '\n' || c = '\r'

/-- Python `s.strip()`. -/
def strip (s : String) : String :=
  ⟨((s.data.dropWhile isWs).reverse.dropWhile isWs).reverse⟩

/-- Split a character list at every occurrence of `sep`, keeping empty
pieces (Python `s.split(sep)` for a single-character separator). -/
def splitCharsOn (sep : Char) : List Char → List Char → List (List Char)
  | cur, [] => [cur.reverse]
  | cur, c :: rest =>
    if c = sep then cur.reverse :: splitCharsOn sep [] rest
    else splitCharsOn sep (c :: cur) rest

/-- Python `s.split('\n')`. -/
def splitNL (s : String) : List String := (splitCharsOn '\n' [] s.data).map List.asString

/-- Python `l[-n:]`: the last `n` elements. -/
def lastN {α : Type} (n : Nat) (l : List α) : List α := l.drop (l.length - n)

/-- Python `sep.join(parts)`. -/
def joinWith (sep : String) : List String → String
  | [] => ""
  | [s] => s
  | s :: rest => s ++ sep ++ joinWith sep rest

/-- Parse a decimal natural number (model of `int(...)` on the pid file
contents; any non-digit character makes it fail). -/
def parseDigits : List Char → Nat → Option Nat
  | [], acc => some acc
  | c :: rest, acc =>
    if c.isDigit then parseDigits rest (acc * 10 + (c.toNat - 48)) else none

/-- Python `int(s)` restricted to unsigned decimals, as written by
`save_daemon_pid`. -/
def parsePid (s : String) : Option Nat :=
  match (strip s).data with
  | [] => none
  | cs => parseDigits cs 0

/-- CPython universal-newline translation applied by `Path.read_text`
(text mode with `newline=None`): `\r\n` and `\r` both become `\n`. -/
def univNL : List Char → List Char
  | [] => []
  | '\r' :: '\n' :: rest => '\n' :: univNL rest
  | '\r' :: rest => '\n' :: univNL rest
  | c :: rest => c :: univNL rest

/-- `Path.read_text(encoding="utf-8")` newline translation on a string. -/
def univNLStr (s : String) : String := ⟨univNL s.data⟩

/-- Byte length of a character under UTF-8 (for `stat().st_size`). -/
def charBytes (c : Char) : Nat :=
  if c.toNat < 0x80 then 1
  else if c.toNat < 0x800 then 2
  else if c.toNat < 0x10000 then 3
  else 4

/-- UTF-8 byte length of a string: the on-disk size of a text file. -/
def utf8Len (s : String) : Nat := (s.data.map charBytes).sum

/-! ## Path joining and resolution (`pathlib` model) -/

/-- The components of a user-supplied path fragment: split on `/`,
dropping empty components and `.` (exactly what `PurePosixPath` keeps). -/
def splitFrag (s : String) : List String :=
  ((splitCharsOn '/' [] s.data).map List.asString).filter (fun c => c ≠ "" && c ≠ ".")

/-- `workspace_root / path_param` in `pathlib`: joining with an absolute
fragment (leading `/`) discards the root. -/
def joinFrag (root : AbsPath) (frag : String) : AbsPath :=
  if startsWithStr frag "/" then splitFrag frag else root ++ splitFrag frag

/-- One pass of lexical resolution: `..` pops a component, `.` and empty
components vanish. -/
def resolveComps : AbsPath → List String → AbsPath
  | acc, [] => acc
  | acc, c :: rest =>
    if c = "" then resolveComps acc rest
    else if c = "." then resolveComps acc rest
    else if c = ".." then resolveComps acc.dropLast rest
    else resolveComps (acc ++ [c]) rest

/-- Lexical model of `Path.resolve()`: collapse `.`/`..`/empty
components starting from the filesystem root (so `/..` stays `/`). -/
def resolvePath (p : AbsPath) : AbsPath := resolveComps [] p

/-- `target.relative_to(base)` for `base` a prefix of `target`. -/
def relTo (target base : AbsPath) : AbsPath := target.drop base.length

/-- `Path.name`: the final component (empty for the filesystem root). -/
def lastComp : AbsPath → String
  | [] => ""
  | [c] => c
  | _ :: c :: rest => lastComp (c :: rest)

/-- All chains `[]`, `[c1]`, `[c1, c2]`, ... up to `p` itself: the
directories `os.makedirs` creates top-down. -/
def dirChain : AbsPath → List AbsPath
  | [] => [[]]
  | c :: rest => [] :: (dirChain rest).map (c :: ·)

/-! ## PathSandbox: `is_path_safe` -/

/-- `is_path_safe` over an abstract resolver: `res p = none` models
`Path.resolve` raising `ValueError`/`OSError` for `p`.  The source
resolves both paths inside a `try` and returns `False` on any failure:

    base_resolved = base_path.resolve()
    target_resolved = target_path.resolve()
    return target_resolved.is_relative_to(base_resolved)
    ... except (ValueError, OSError): return False
-/
def is_path_safeR (res : AbsPath → Option AbsPath) (base target : AbsPath) : Bool :=
  match res base, res target with
  | some b, some t => listPre b t
  | _, _ => false

/-- `is_path_safe(base_path, target_path)` with the lexical resolver
(which never fails). -/
def is_path_safe (base target : AbsPath) : Bool :=
  is_path_safeR (fun p => some (resolvePath p)) base target

/-! ## Filesystem model -/

/-- A filesystem entry: a UTF-8 text file with its content, or a
directory. -/
inductive Entry
  | file (content : String)
  | dir
  deriving DecidableEq

/-- The filesystem: an association list from absolute paths to entries.
A later `writeText`/`mkdirOne` conses a binding that shadows older ones;
deletion filters bindings out. -/
structure FS where
  entries : List (AbsPath × Entry)
  deriving DecidableEq

/-- First binding for `p`, if any (does the path exist, and as what?). -/
def lookupEnt (p : AbsPath) : List (AbsPath × Entry) → Option Entry
  | [] => none
  | (q, e) :: rest => if p = q then some e else lookupEnt p rest

def FS.lookup (fs : FS) (p : AbsPath) : Option Entry := lookupEnt p fs.entries

/-- `os.mkdir` for one level with `exist_ok` semantics: an existing
directory is fine, an existing file raises (`none`). -/
def FS.mkdirOne (fs : FS) (q : AbsPath) : Option FS :=
  match fs.lookup q with
  | some .dir => some fs
  | some (.file _) => none
  | none => some ⟨(q, .dir) :: fs.entries⟩

/-- Create each listed directory in order, failing on the first file in
the way. -/
def FS.mkdirList : FS → List AbsPath → Option FS
  | fs, [] => some fs
  | fs, q :: rest =>
    match fs.mkdirOne q with
    | none => none
    | some fs1 => fs1.mkdirList rest

/-- `Path.mkdir(parents=True, exist_ok=True)`: create `p` and all its
ancestors top-down; a file anywhere on the chain raises (`none`). -/
def FS.mkdirp (fs : FS) (p : AbsPath) : Option FS := fs.mkdirList (dirChain p)

/-- `Path.write_text(content, encoding="utf-8")`: overwrite or create
the file; writing onto a directory raises `IsADirectoryError` (`none`). -/
def FS.writeText (fs : FS) (p : AbsPath) (c : String) : Option FS :=
  match fs.lookup p with
  | some .dir => none
  | _ => some ⟨(p, .file c) :: fs.entries⟩

/-- `Path.read_text(encoding="utf-8")`: the stored content after
universal-newline translation; `none` if absent or a directory. -/
def FS.readText (fs : FS) (p : AbsPath) : Option String :=
  match fs.lookup p with
  | some (.file c) => some (univNLStr c)
  | _ => none

/-- `Path.unlink()`: drop every binding for exactly `p`. -/
def FS.unlink (fs : FS) (p : AbsPath) : FS :=
  ⟨fs.entries.filter (fun qe => !(qe.1 = p : Bool))⟩

/-- `shutil.rmtree(p)`: drop `p` and everything below it. -/
def FS.rmtree (fs : FS) (p : AbsPath) : FS :=
  ⟨fs.entries.filter (fun qe => !listPre p qe.1)⟩

/-- `get_workspace_root()`: the configured root is resolved and created
with `mkdir(parents=True, exist_ok=True)` before every request.  The
source's fallback to a default `./workspace` directory when that mkdir
raises is not modelled; when root creation fails the filesystem is left
unchanged, and theorems that need the root assume `rootCreatable`. -/
def ensureRootD (fs : FS) (root : AbsPath) : FS := (fs.mkdirp root).getD fs

/-- Root creation (the happy path of `get_workspace_root`) succeeds. -/
def rootCreatable (fs : FS) (root : AbsPath) : Bool := (fs.mkdirp root).isSome

/-! ## WorkspaceFileService handlers -/

/-- One row of a directory listing produced by `browse_files`. -/
structure ItemInfo where
  name : String
  rel : AbsPath
  isDir : Bool
  size : Option Nat
  deriving DecidableEq

/-- Names of the immediate children of `p` (first binding wins), the
model of `target_path.iterdir()`. -/
def childNameOf (p q : AbsPath) : Option String :=
  if q.length = p.length + 1 && listPre p q then some (lastComp q) else none

def dedupAcc (seen : List String) : List String → List String
  | [] => []
  | s :: rest => if s ∈ seen then dedupAcc seen rest else s :: dedupAcc (s :: seen) rest

/-- Lexicographic character-list order (Python path sorting). -/
def charListLe : List Char → List Char → Bool
  | [], _ => true
  | _ :: _, [] => false
  | a :: as, b :: bs => if a = b then charListLe as bs else decide (a < b)

def strLe (a b : String) : Bool := charListLe a.data b.data

def insSorted (s : String) : List String → List String
  | [] => [s]
  | t :: rest => if strLe s t then s :: t :: rest else t :: insSorted s rest

def sortStr : List String → List String
  | [] => []
  | s :: rest => insSorted s (sortStr rest)

/-- The `sorted(target_path.iterdir())` enumeration of `p`'s children. -/
def FS.childNames (fs : FS) (p : AbsPath) : List String :=
  sortStr (dedupAcc [] (fs.entries.filterMap (fun qe => childNameOf p qe.1)))

/-- One listing row: name, workspace-relative path, kind, size for files. -/
def itemOf (fs : FS) (root q : AbsPath) : ItemInfo :=
  match fs.lookup q with
  | some (.file c) => ⟨lastComp q, relTo q root, false, some (utf8Len c)⟩
  | _ => ⟨lastComp q, relTo q root, true, none⟩

/-- Outcome of `browse_files` (no empty-path rejection exists there). -/
inductive BrowseRes
  | accessDenied
  | notFound
  | fileMeta (name : String) (rel : AbsPath) (size : Nat)
  | dirListing (rel : AbsPath) (items : List ItemInfo)
  deriving DecidableEq

def BrowseRes.status : BrowseRes → Nat
  | .accessDenied => 403
  | .notFound => 404
  | .fileMeta _ _ _ => 200
  | .dirListing _ _ => 200

/-- The part of `browse_files` from the security check on: sandbox
check, existence check, then file metadata or a sorted listing.  The
listing's `path` field is `""` (here `[]`) for the root itself. -/
def browseTarget (fs : FS) (root target : AbsPath) : BrowseRes :=
  if !is_path_safe root target then .accessDenied
  else
    match fs.lookup target with
    | none => .notFound
    | some (.file c) => .fileMeta (lastComp target) (relTo target root) (utf8Len c)
    | some .dir =>
      .dirListing (if target = root then [] else relTo target root)
        ((fs.childNames target).map (fun n => itemOf fs root (target ++ [n])))

/-- `browse_files`: an empty/absent `path` query parameter designates
the workspace root itself (joined-and-resolved otherwise). -/
def browse_files (fs : FS) (root : AbsPath) (pathParam : Option String) :
    BrowseRes × FS :=
  let fs1 := ensureRootD fs root
  let pp := pathParam.getD ""
  let target := if pp = "" then root else resolvePath (joinFrag root pp)
  (browseTarget fs1 root target, fs1)

/-- Outcome of `read_file`. -/
inductive ReadRes
  | badRequest
  | accessDenied
  | notFound
  | notAFile
  | ok (content : String) (rel : AbsPath) (size : Nat)
  deriving DecidableEq

def ReadRes.status : ReadRes → Nat
  | .badRequest => 400
  | .accessDenied => 403
  | .notFound => 404
  | .notAFile => 400
  | .ok _ _ _ => 200

def ReadRes.getContent : ReadRes → Option String
  | .ok c _ _ => some c
  | _ => none

/-- `read_file`: empty `path` → 400; sandbox check; existence; file
kind; then content via `read_text` with the on-disk byte size. -/
def read_file (fs : FS) (root : AbsPath) (pathParam : Option String) :
    ReadRes × FS :=
  let fs1 := ensureRootD fs root
  let pp := pathParam.getD ""
  if pp = "" then (.badRequest, fs1)
  else
    let target := resolvePath (joinFrag root pp)
    if !is_path_safe root target then (.accessDenied, fs1)
    else
      match fs1.lookup target with
      | none => (.notFound, fs1)
      | some .dir => (.notAFile, fs1)
      | some (.file c) => (.ok (univNLStr c) (relTo target root) (utf8Len c), fs1)

/-- Outcome of `write_file`.  `serverError` is the generic 500 response
produced when `mkdir`/`write_text` raise (e.g. writing onto a
directory, or a file standing where a parent directory is needed). -/
inductive WriteRes
  | badRequest
  | accessDenied
  | serverError
  | ok (rel : AbsPath)
  deriving DecidableEq

def WriteRes.status : WriteRes → Nat
  | .badRequest => 400
  | .accessDenied => 403
  | .serverError => 500
  | .ok _ => 200

/-- `write_file`: JSON body fields default to `""` when absent
(`data.get("path", "")`, `data.get("content", "")`); empty path → 400;
sandbox check; create parent directories; overwrite the file. -/
def write_file (fs : FS) (root : AbsPath)
    (pathParam contentParam : Option String) : WriteRes × FS :=
  let fs1 := ensureRootD fs root
  let pp := pathParam.getD ""
  let c := contentParam.getD ""
  if pp = "" then (.badRequest, fs1)
  else
    let target := resolvePath (joinFrag root pp)
    if !is_path_safe root target then (.accessDenied, fs1)
    else
      match fs1.mkdirp target.dropLast with
      | none => (.serverError, fs1)
      | some fs2 =>
        match fs2.writeText target c with
        | none => (.serverError, fs2)
        | some fs3 => (.ok (relTo target root), fs3)

/-- Outcome of `create_folder`. -/
inductive MkdirRes
  | badRequest
  | accessDenied
  | alreadyExists
  | serverError
  | ok (rel : AbsPath)
  deriving DecidableEq

def MkdirRes.status : MkdirRes → Nat
  | .badRequest => 400
  | .accessDenied => 403
  | .alreadyExists => 400
  | .serverError => 500
  | .ok _ => 200

/-- `create_folder`: empty path → 400; sandbox check; an existing
target (file or directory) → 400 `alreadyExists`; else create with
parents. -/
def create_folder (fs : FS) (root : AbsPath) (pathParam : Option String) :
    MkdirRes × FS :=
  let fs1 := ensureRootD fs root
  let pp := pathParam.getD ""
  if pp = "" then (.badRequest, fs1)
  else
    let target := resolvePath (joinFrag root pp)
    if !is_path_safe root target then (.accessDenied, fs1)
    else if (fs1.lookup target).isSome then (.alreadyExists, fs1)
    else
      match fs1.mkdirp target with
      | none => (.serverError, fs1)
      | some fs2 => (.ok (relTo target root), fs2)

/-- Outcome of `delete_path`. -/
inductive DeleteRes
  | badRequest
  | accessDenied
  | notFound
  | forbidden
  | ok
  deriving DecidableEq

def DeleteRes.status : DeleteRes → Nat
  | .badRequest => 400
  | .accessDenied => 403
  | .notFound => 404
  | .forbidden => 403
  | .ok => 200

/-- `delete_path`: empty path → 400; sandbox check; existence → 404;
the workspace root itself → 403 `forbidden`; then `shutil.rmtree` for a
directory or `unlink` for a file. -/
def delete_path (fs : FS) (root : AbsPath) (pathParam : Option String) :
    DeleteRes × FS :=
  let fs1 := ensureRootD fs root
  let pp := pathParam.getD ""
  if pp = "" then (.badRequest, fs1)
  else
    let target := resolvePath (joinFrag root pp)
    if !is_path_safe root target then (.accessDenied, fs1)
    else if (fs1.lookup target).isNone then (.notFound, fs1)
    else if target = root then (.forbidden, fs1)
    else
      match fs1.lookup target with
      | some .dir => (.ok, fs1.rmtree target)
      | _ => (.ok, fs1.unlink target)

/-! ## AuthGate: `BasicAuthMiddleware.dispatch` -/

/-- Decision of the auth middleware: pass the request through, or answer
with a status code and a `WWW-Authenticate` challenge header. -/
inductive AuthRes
  | allowed
  | denied (status : Nat) (challenge : String)
  deriving DecidableEq

/-- The challenge header value sent with every 401. -/
def authChallenge : String := "Basic realm=\"Sleepless Agent WebUI\""

/-- `credentials.split(":", 1)` followed by unpacking into
`username, password`: fails (`ValueError`) when no colon is present. -/
def breakFirst (sep : Char) : List Char → Option (List Char × List Char)
  | [] => none
  | a :: rest =>
    if a = sep then some ([], rest)
    else (breakFirst sep rest).map (fun lr => (a :: lr.1, lr.2))

def splitCred (s : String) : Option (String × String) :=
  (breakFirst ':' s.data).map (fun lr => (⟨lr.1⟩, ⟨lr.2⟩))

/-- `BasicAuthMiddleware.dispatch`.  `decode` abstracts
`base64.b64decode(payload).decode("utf-8")`; `none` models either the
base64 or the UTF-8 decoding raising.  `secrets.compare_digest` is
modelled as string equality (its constant-time execution has no
functional content). -/
def dispatch (pwd uname : String) (reqPath : String) (authHeader : Option String)
    (decode : String → Option String) : AuthRes :=
  if pwd = "" then .allowed
  else if startsWithStr reqPath "/static" then .allowed
  else
    match authHeader with
    | none => .denied 401 authChallenge
    | some h =>
      if h = "" then .denied 401 authChallenge
      else if !startsWithStr h "Basic " then .denied 401 authChallenge
      else
        match decode (dropStr 6 h) with
        | none => .denied 401 authChallenge
        | some cred =>
          match splitCred cred with
          | none => .denied 401 authChallenge
          | some up =>
            if up.1 = uname ∧ up.2 = pwd then .allowed
            else .denied 401 authChallenge

/-! ## DaemonSupervisor -/

/-- A live OS process as `psutil` reports it. -/
structure ProcInfo where
  pid : Nat
  cmdline : List String
  deriving DecidableEq

/-- The world the supervisor observes: the pid-file contents (if the
file exists), the OS process table, and the worker stderr log contents
(if that file exists). -/
structure World where
  pidFileContent : Option String
  procs : List ProcInfo
  stderrLog : Option String
  deriving DecidableEq

/-- `psutil.Process(pid)`: the table entry for `pid`, if the process is
alive.  (`psutil.pid_exists(0)` is true on POSIX but `Process(0)`
raises `NoSuchProcess` on Linux, so folding the two calls into one
lookup preserves the observable behaviour of `is_daemon_running`.) -/
def findProc (w : World) (pid : Nat) : Option ProcInfo :=
  w.procs.find? (fun p => p.pid = pid)

/-- Pid-file branch check 1:
`len(cmdline) >= 2 and cmdline[0].endswith('python') and 'sle' in cmdline[1] and 'daemon' in cmdline`. -/
def cmdCheck1 (cl : List String) : Bool :=
  match cl with
  | c0 :: c1 :: _ => endsWithStr c0 "python" && strContains c1 "sle" && cl.contains "daemon"
  | _ => false

/-- Pid-file branch check 2:
`'sleepless_agent' in ' '.join(cmdline) and 'daemon' in cmdline`. -/
def cmdCheck2 (cl : List String) : Bool :=
  strContains (joinWith " " cl) "sleepless_agent" && cl.contains "daemon"

/-- The pid-file branch of `is_daemon_running`: parse the stored pid,
check the process is alive, and trust it only if its command line
matches the worker signature.  Any failure falls through (`none`) to
the process-table scan. -/
def pidfileCheck (w : World) : Option Nat :=
  match w.pidFileContent with
  | none => none
  | some s =>
    match parsePid s with
    | none => none
    | some pid =>
      match findProc w pid with
      | none => none
      | some p => if cmdCheck1 p.cmdline || cmdCheck2 p.cmdline then some pid else none

/-- Scan predicate on one process:
`'sle daemon' in s or 'sleepless-agent daemon' in s or 'sleepless_agent.core.daemon' in s`
for `s = ' '.join(cmdline)`; processes with an empty command line are
skipped. -/
def scanCheck (cl : List String) : Bool :=
  let s := joinWith " " cl
  strContains s "sle daemon" || strContains s "sleepless-agent daemon" ||
    strContains s "sleepless_agent.core.daemon"

/-- The fallback scan over `psutil.process_iter`. -/
def scanProcs (w : World) : Option Nat :=
  (w.procs.find? (fun p => !p.cmdline.isEmpty && scanCheck p.cmdline)).map (fun p => p.pid)

/-- `is_daemon_running() -> (running, pid)`. -/
def is_daemon_running (w : World) : Bool × Option Nat :=
  match pidfileCheck w with
  | some pid => (true, some pid)
  | none =>
    match scanProcs w with
    | some pid => (true, some pid)
    | none => (false, none)

/-- `save_daemon_pid`: persist the pid as the file's decimal text. -/
def save_daemon_pid (w : World) (pid : Nat) : World :=
  { w with pidFileContent := some (Nat.repr pid) }

/-- `clear_daemon_pid`: remove the pid file if present. -/
def clear_daemon_pid (w : World) : World :=
  { w with pidFileContent := none }

/-- The failure message of `start_agent`: the base text enriched with
the last five lines of the worker's stderr log when that file exists
(`read_text().strip().split('\n')[-5:]`, joined with `'; '`). -/
def errorTail (w : World) : String :=
  match w.stderrLog with
  | none => "Failed to start agent"
  | some s =>
    let lines := lastN 5 (splitNL (strip s))
    if lines.isEmpty then "Failed to start agent"
    else "Failed to start agent" ++ ". Recent errors: " ++ joinWith "; " lines

/-- Result of `POST /api/agent/start`. -/
inductive StartRes
  | alreadyRunning
  | ok (pid : Nat)
  | startFailed (msg : String)
  deriving DecidableEq

def StartRes.status : StartRes → Nat
  | .alreadyRunning => 400
  | .ok _ => 200
  | .startFailed _ => 500

/-- `start_agent`.  `postSpawn` is the world as observed when the
handler resumes after `subprocess.Popen(["sle", "daemon"], ...)` and the
one-second grace sleep (the spawned child, whatever became of it, is
part of that world).  The verification re-runs detection there:
`if running and pid:` persists the pid, anything else is a 500
`startFailed` carrying the stderr tail. -/
def start_agent (w postSpawn : World) : StartRes × World :=
  if (is_daemon_running w).1 then (.alreadyRunning, w)
  else
    match is_daemon_running postSpawn with
    | (true, some pid) =>
      if pid ≠ 0 then (.ok pid, save_daemon_pid postSpawn pid)
      else (.startFailed (errorTail postSpawn), postSpawn)
    | _ => (.startFailed (errorTail postSpawn), postSpawn)

/-- A signal sent to a process. -/
inductive Sig
  | term (pid : Nat)
  | kill (pid : Nat)
  deriving DecidableEq

/-- Result of `POST /api/agent/stop`. -/
inductive StopRes
  | notRunning
  | ok
  deriving DecidableEq

def StopRes.status : StopRes → Nat
  | .notRunning => 400
  | .ok => 200

/-- `stop_agent`.  `wSig` is the world at the moment `psutil.Process`
is constructed and `terminate` is sent (the process may have exited
between detection and this point); `wGrace` is the world after the
two-second grace sleep, where `is_running` decides whether `kill` is
sent.  A `NoSuchProcess` at signalling time is caught: the pid file is
cleared and the call still succeeds.  Returns the result, the signals
sent, and the final world. -/
def stop_agent (w wSig wGrace : World) : StopRes × List Sig × World :=
  if !(is_daemon_running w).1 then (.notRunning, [], w)
  else
    match (is_daemon_running w).2 with
    | none => (.ok, [], w)
    | some pid =>
      if pid = 0 then (.ok, [], w)
      else
        match findProc wSig pid with
        | none => (.ok, [], clear_daemon_pid wSig)
        | some _ =>
          let sigs :=
            Sig.term pid :: (if (findProc wGrace pid).isSome then [Sig.kill pid] else [])
          (.ok, sigs, clear_daemon_pid wGrace)

/-! ## Basic lemmas about paths and resolution -/

theorem listPre_refl {α : Type} [DecidableEq α] (l : List α) : listPre l l = true := by
  induction l with
  | nil => rfl
  | cons a as ih => simp [listPre, ih]

/-- A path component that survives resolution: not empty, `.` or `..`. -/
def PlainComp (c : String) : Prop := c ≠ "" ∧ c ≠ "." ∧ c ≠ ".."

theorem resolveComps_plain (l : List String) :
    ∀ acc : AbsPath, (∀ c ∈ acc, PlainComp c) →
      ∀ c ∈ resolveComps acc l, PlainComp c := by
  induction l with
  | nil => intro acc hacc; simpa [resolveComps] using hacc
  | cons c rest ih =>
    intro acc hacc
    rw [resolveComps]
    by_cases h1 : c = ""
    · simpa [h1] using ih acc hacc
    · by_cases h2 : c = "."
      · simpa [h1, h2] using ih acc hacc
      · by_cases h3 : c = ".."
        · simp only [h1, h2, h3, if_false, if_true, if_neg, if_pos]
          refine ih acc.dropLast ?_
          intro d hd
          exact hacc d (List.dropLast_subset _ hd)
        · simp only [h1, h2, h3, if_false, if_neg]
          refine ih (acc ++ [c]) ?_
          intro d hd
          rcases List.mem_append.1 hd with hd | hd
          · exact hacc d hd
          · rcases List.mem_singleton.1 hd with rfl
            exact ⟨h1, h2, h3⟩

theorem resolveComps_app_plain (l : List String) :
    ∀ acc : AbsPath, (∀ c ∈ l, PlainComp c) → resolveComps acc l = acc ++ l := by
  induction l with
  | nil => intro acc _; simp [resolveComps]
  | cons c rest ih =>
    intro acc hl
    have hc : PlainComp c := hl c (List.mem_cons_self c rest)
    rw [resolveComps, if_neg hc.1, if_neg hc.2.1, if_neg hc.2.2]
    rw [ih (acc ++ [c]) (fun d hd => hl d (List.mem_cons_of_mem _ hd))]
    simp

theorem resolvePath_plain (p : AbsPath) : ∀ c ∈ resolvePath p, PlainComp c :=
  resolveComps_plain p [] (by intro c h; cases h)

theorem resolvePath_idem (p : AbsPath) : resolvePath (resolvePath p) = resolvePath p := by
  have := resolveComps_app_plain (resolvePath p) [] (resolvePath_plain p)
  simpa [resolvePath] using this

theorem is_path_safe_eq (base target : AbsPath) :
    is_path_safe base target = listPre (resolvePath base) (resolvePath target) := rfl

theorem is_path_safe_self_resolved (root : AbsPath) :
    is_path_safe root (resolvePath root) = true := by
  rw [is_path_safe_eq, resolvePath_idem]
  exact listPre_refl _

theorem joinFrag_empty (root : AbsPath) : joinFrag root "" = root := by
  rw [joinFrag, if_neg]
  · rw [show splitFrag "" = [] from rfl, List.append_nil]
  · rw [show startsWithStr "" "/" = false from rfl]; simp

/-! ## Lemmas about the filesystem model -/

theorem lookupEnt_cons_self (p : AbsPath) (e : Entry) (rest : List (AbsPath × Entry)) :
    lookupEnt p ((p, e) :: rest) = some e := by
  simp [lookupEnt]

theorem lookupEnt_cons_ne {p q : AbsPath} (e : Entry) (rest : List (AbsPath × Entry))
    (h : p ≠ q) : lookupEnt p ((q, e) :: rest) = lookupEnt p rest := by
  simp [lookupEnt, h]

theorem FS.mkdirOne_lookup_self {fs fs' : FS} {q : AbsPath}
    (h : fs.mkdirOne q = some fs') : fs'.lookup q = some .dir := by
  rw [FS.mkdirOne] at h
  match he : fs.lookup q with
  | some .dir => rw [he] at h; cases h; exact he
  | some (.file c) => rw [he] at h; cases h
  | none =>
    rw [he] at h; cases h
    exact lookupEnt_cons_self ..

theorem FS.mkdirOne_lookup_ne {fs fs' : FS} {q r : AbsPath}
    (h : fs.mkdirOne q = some fs') (hne : r ≠ q) : fs'.lookup r = fs.lookup r := by
  rw [FS.mkdirOne] at h
  match he : fs.lookup q with
  | some .dir => rw [he] at h; cases h; rfl
  | some (.file c) => rw [he] at h; cases h
  | none =>
    rw [he] at h; cases h
    exact lookupEnt_cons_ne _ _ hne

theorem FS.mkdirOne_pres_dir {fs fs' : FS} {q r : AbsPath}
    (hd : fs.lookup r = some .dir) (h : fs.mkdirOne q = some fs') :
    fs'.lookup r = some .dir := by
  by_cases hrq : r = q
  · subst hrq; exact FS.mkdirOne_lookup_self h
  · rw [FS.mkdirOne_lookup_ne h hrq]; exact hd

theorem FS.mkdirList_pres_dir {qs : List AbsPath} :
    ∀ {fs fs' : FS} {r : AbsPath}, fs.lookup r = some .dir →
      fs.mkdirList qs = some fs' → fs'.lookup r = some .dir := by
  induction qs with
  | nil => intro fs fs' r hd h; rw [FS.mkdirList] at h; cases h; exact hd
  | cons q rest ih =>
    intro fs fs' r hd h
    rw [FS.mkdirList] at h
    match h1 : fs.mkdirOne q with
    | none => rw [h1] at h; cases h
    | some fs1 =>
      rw [h1] at h
      exact ih (FS.mkdirOne_pres_dir hd h1) h

theorem FS.mkdirList_dirs {qs : List AbsPath} :
    ∀ {fs fs' : FS}, fs.mkdirList qs = some fs' →
      ∀ q ∈ qs, fs'.lookup q = some .dir := by
  induction qs with
  | nil => intro fs fs' _ q hq; cases hq
  | cons q0 rest ih =>
    intro fs fs' h q hq
    rw [FS.mkdirList] at h
    match h1 : fs.mkdirOne q0 with
    | none => rw [h1] at h; cases h
    | some fs1 =>
      rw [h1] at h
      rcases List.mem_cons.1 hq with rfl | hq
      · exact FS.mkdirList_pres_dir (FS.mkdirOne_lookup_self h1) h
      · exact ih h q hq

theorem FS.mkdirp_dirs {fs fs' : FS} {p : AbsPath} (h : fs.mkdirp p = some fs') :
    ∀ q ∈ dirChain p, fs'.lookup q = some .dir :=
  FS.mkdirList_dirs h

theorem FS.mkdirOne_noop {fs : FS} {q : AbsPath} (h : fs.lookup q = some .dir) :
    fs.mkdirOne q = some fs := by
  rw [FS.mkdirOne, h]

theorem FS.mkdirList_noop {qs : List AbsPath} :
    ∀ {fs : FS}, (∀ q ∈ qs, fs.lookup q = some .dir) → fs.mkdirList qs = some fs := by
  induction qs with
  | nil => intro fs _; rfl
  | cons q rest ih =>
    intro fs h
    rw [FS.mkdirList, FS.mkdirOne_noop (h q (List.mem_cons_self q rest))]
    exact ih (fun r hr => h r (List.mem_cons_of_mem _ hr))

theorem FS.mkdirp_noop {fs : FS} {p : AbsPath}
    (h : ∀ q ∈ dirChain p, fs.lookup q = some .dir) : fs.mkdirp p = some fs :=
  FS.mkdirList_noop h

theorem self_mem_dirChain (p : AbsPath) : p ∈ dirChain p := by
  induction p with
  | nil => simp [dirChain]
  | cons c rest ih =>
    rw [dirChain]
    exact List.mem_cons_of_mem _ (List.mem_map.2 ⟨rest, ih, rfl⟩)

theorem ensureRootD_eq {fs fs' : FS} {root : AbsPath} (h : fs.mkdirp root = some fs') :
    ensureRootD fs root = fs' := by
  rw [ensureRootD, h]; rfl

theorem FS.writeText_some {fs fs' : FS} {p : AbsPath} {c : String}
    (h : fs.writeText p c = some fs') :
    fs.lookup p ≠ some .dir ∧ fs' = ⟨(p, .file c) :: fs.entries⟩ := by
  rw [FS.writeText] at h
  match he : fs.lookup p with
  | some .dir => rw [he] at h; cases h
  | some (.file c0) => rw [he] at h; cases h; exact ⟨by simp [he], rfl⟩
  | none => rw [he] at h; cases h; exact ⟨by simp [he], rfl⟩

/-! ## Lemmas about daemon detection -/

/-- Any pid reported by detection is the pid of some process in the
table (either via the pid-file check or via the scan). -/
theorem detected_pid_mem {w : World} {pid : Nat}
    (h : is_daemon_running w = (true, some pid)) : ∃ pr ∈ w.procs, pr.pid = pid := by
  rw [is_daemon_running] at h
  cases hpf : pidfileCheck w with
  | some p0 =>
    rw [hpf] at h
    dsimp only at h
    have hp : p0 = pid := by simpa using h
    subst hp
    rw [pidfileCheck] at hpf
    cases hc : w.pidFileContent with
    | none => rw [hc] at hpf; dsimp only at hpf; cases hpf
    | some s =>
      rw [hc] at hpf
      dsimp only at hpf
      cases hp2 : parsePid s with
      | none => rw [hp2] at hpf; dsimp only at hpf; cases hpf
      | some pid1 =>
        rw [hp2] at hpf
        dsimp only at hpf
        cases hf : findProc w pid1 with
        | none => rw [hf] at hpf; dsimp only at hpf; cases hpf
        | some pr =>
          rw [hf] at hpf
          dsimp only at hpf
          by_cases hck : (cmdCheck1 pr.cmdline || cmdCheck2 pr.cmdline) = true
          · rw [if_pos hck] at hpf
            have hp1 : pid1 = p0 := by simpa using hpf
            subst hp1
            refine ⟨pr, List.mem_of_find?_eq_some hf, ?_⟩
            simpa using List.find?_some hf
          · rw [if_neg hck] at hpf; cases hpf
  | none =>
    rw [hpf] at h
    dsimp only at h
    cases hs : scanProcs w with
    | some p0 =>
      rw [hs] at h
      dsimp only at h
      have hp : p0 = pid := by simpa using h
      subst hp
      rw [scanProcs] at hs
      obtain ⟨pr, hfind, hpid2⟩ := Option.map_eq_some'.1 hs
      exact ⟨pr, List.mem_of_find?_eq_some hfind, hpid2⟩
    | none => rw [hs] at h; dsimp only at h; simp at h

/-- When detection says "not running" it reports no pid. -/
theorem running_false {w : World} (h : (is_daemon_running w).1 = false) :
    is_daemon_running w = (false, none) := by
  rw [is_daemon_running] at h ⊢
  cases hpf : pidfileCheck w with
  | some p0 => rw [hpf] at h; simp at h
  | none =>
    rw [hpf] at h
    dsimp only at h ⊢
    cases hs : scanProcs w with
    | some p0 => rw [hs] at h; simp at h
    | none => rfl

/-- On a world whose process table lists only positive pids (every
POSIX process table: pid 0 is not a listable user process), a detected
pid is positive. -/
theorem detected_pid_pos {w : World} {pid : Nat}
    (hpos : ∀ pr ∈ w.procs, 0 < pr.pid)
    (h : is_daemon_running w = (true, some pid)) : 0 < pid := by
  obtain ⟨pr, hmem, hp⟩ := detected_pid_mem h
  exact hp ▸ hpos pr hmem

/-! ## Claims C4, C5, C6: the daemon supervisor -/

/-- C4: `start` called while detection reports Running fails with
`AlreadyRunning` (HTTP 400) and returns the world untouched — in
particular it spawns nothing; `stop` called while detection reports
Stopped fails with `NotRunning` (HTTP 400), signals nothing and returns
the world untouched.  The supervisor therefore never spawns a second
worker while one is detected as running. -/
theorem start_stop_guards (w postSpawn wSig wGrace : World) :
    ((is_daemon_running w).1 = true →
      start_agent w postSpawn = (.alreadyRunning, w) ∧ StartRes.alreadyRunning.status = 400) ∧
    ((is_daemon_running w).1 = false →
      stop_agent w wSig wGrace = (.notRunning, [], w) ∧ StopRes.notRunning.status = 400) := by
  constructor
  · intro h
    exact ⟨by rw [start_agent, if_pos h], rfl⟩
  · intro h
    exact ⟨by rw [stop_agent, if_pos (by simp [h])], rfl⟩

/-- C4 witness: concrete stopped and running worlds. -/
theorem start_stop_guards_witness :
    start_agent ⟨none, [⟨42, ["sle", "daemon"]⟩], none⟩ ⟨none, [], none⟩
      = (.alreadyRunning, ⟨none, [⟨42, ["sle", "daemon"]⟩], none⟩) ∧
    stop_agent ⟨none, [], none⟩ ⟨none, [], none⟩ ⟨none, [], none⟩
      = (.notRunning, [], ⟨none, [], none⟩) :=
  ⟨((start_stop_guards ⟨none, [⟨42, ["sle", "daemon"]⟩], none⟩ ⟨none, [], none⟩
      ⟨none, [], none⟩ ⟨none, [], none⟩).1 (by decide)).1,
   ((start_stop_guards ⟨none, [], none⟩ ⟨none, [], none⟩
      ⟨none, [], none⟩ ⟨none, [], none⟩).2 (by decide)).1⟩

/-- C5: after spawning and the grace wait, `start` re-runs detection on
the observed world `postSpawn`.  If detection reports Running with a
pid it persists that pid in the pid file (the `DaemonIdentity`) and
returns success with it; if detection still reports Stopped it returns
a 500 `startFailed` whose message is enriched by `errorTail` with the
last five lines of the worker stderr log.  (`hpos` states that the
process table lists only positive pids, true of every POSIX process
table.) -/
theorem start_verification (w postSpawn : World) (pid : Nat)
    (hstopped : (is_daemon_running w).1 = false)
    (hpos : ∀ pr ∈ postSpawn.procs, 0 < pr.pid) :
    (is_daemon_running postSpawn = (true, some pid) →
      start_agent w postSpawn = (.ok pid, save_daemon_pid postSpawn pid) ∧
      (start_agent w postSpawn).2.pidFileContent = some (Nat.repr pid)) ∧
    ((is_daemon_running postSpawn).1 = false →
      start_agent w postSpawn = (.startFailed (errorTail postSpawn), postSpawn)) := by
  constructor
  · intro hdet
    have hpid : pid ≠ 0 := Nat.pos_iff_ne_zero.mp (detected_pid_pos hpos hdet)
    have h1 : start_agent w postSpawn = (.ok pid, save_daemon_pid postSpawn pid) := by
      rw [start_agent, if_neg (by simp [hstopped]), hdet]
      simp [hpid]
    exact ⟨h1, by rw [h1]; rfl⟩
  · intro h
    rw [start_agent, if_neg (by simp [hstopped]), running_false h]

/-- C5 witness: an empty world, then a world where the worker is
visible; and a failed start with a populated stderr log. -/
theorem start_verification_witness :
    start_agent ⟨none, [], none⟩ ⟨none, [⟨42, ["sle", "daemon"]⟩], none⟩
      = (.ok 42, ⟨some "42", [⟨42, ["sle", "daemon"]⟩], none⟩) ∧
    start_agent ⟨none, [], none⟩ ⟨none, [], some "boom"⟩
      = (.startFailed "Failed to start agent. Recent errors: boom", ⟨none, [], some "boom"⟩) :=
  ⟨((start_verification ⟨none, [], none⟩ ⟨none, [⟨42, ["sle", "daemon"]⟩], none⟩ 42
      (by decide) (by decide)).1 (by decide)).1,
   (start_verification ⟨none, [], none⟩ ⟨none, [], some "boom"⟩ 0
      (by decide) (by decide)).2 (by decide)⟩

/-- C6: when detection reports a running pid, `stop` succeeds and the
pid file is cleared in every outcome.  If the process is still alive at
signalling time (`wSig`), a graceful `terminate` is sent and, after the
grace wait, a forceful `kill` exactly when the process is still alive
in `wGrace`.  If the process vanished between detection and signalling
(`NoSuchProcess`), no signal is sent and the call is still a success
with the pid file cleared. -/
theorem stop_clears_identity (w wSig wGrace : World) (pid : Nat)
    (hdet : is_daemon_running w = (true, some pid))
    (hpos : ∀ pr ∈ w.procs, 0 < pr.pid) :
    (stop_agent w wSig wGrace).1 = .ok ∧
    (stop_agent w wSig wGrace).2.2.pidFileContent = none ∧
    (findProc wSig pid = none →
      stop_agent w wSig wGrace = (.ok, [], clear_daemon_pid wSig)) ∧
    (findProc wSig pid ≠ none →
      stop_agent w wSig wGrace =
        (.ok, Sig.term pid :: (if (findProc wGrace pid).isSome then [Sig.kill pid] else []),
         clear_daemon_pid wGrace)) := by
  have hpid : pid ≠ 0 := Nat.pos_iff_ne_zero.mp (detected_pid_pos hpos hdet)
  have hrun : ¬((!(is_daemon_running w).1) = true) := by simp [hdet]
  have hbase : stop_agent w wSig wGrace =
      (match findProc wSig pid with
       | none => (.ok, [], clear_daemon_pid wSig)
       | some _ =>
         (.ok, Sig.term pid :: (if (findProc wGrace pid).isSome then [Sig.kill pid] else []),
          clear_daemon_pid wGrace)) := by
    rw [stop_agent, if_neg hrun, hdet]
    simp [hpid]
  refine ⟨?_, ?_, ?_, ?_⟩
  · rw [hbase]; rcases findProc wSig pid with _ | pr <;> rfl
  · rw [hbase]; rcases findProc wSig pid with _ | pr <;> rfl
  · intro hF; rw [hbase, hF]
  · intro hF
    rw [hbase]
    rcases hE : findProc wSig pid with _ | pr
    · exact absurd hE hF
    · rfl

/-- C6 witness: worker detected, alive at signalling time, gone after
the grace wait (so only `terminate` is sent) — and the pid file ends
cleared. -/
theorem stop_clears_identity_witness :
    stop_agent ⟨some "42", [⟨42, ["sle", "daemon"]⟩], none⟩
        ⟨some "42", [⟨42, ["sle", "daemon"]⟩], none⟩ ⟨some "42", [], none⟩
      = (.ok, [Sig.term 42], ⟨none, [], none⟩) :=
  (stop_clears_identity ⟨some "42", [⟨42, ["sle", "daemon"]⟩], none⟩
      ⟨some "42", [⟨42, ["sle", "daemon"]⟩], none⟩ ⟨some "42", [], none⟩ 42
      (by decide) (by decide)).2.2.2 (by decide)

/-! ## Claim C1: sandbox containment -/

/-- C1: for every pair of paths, `is_path_safe` (over an arbitrary
resolver `res`, where `res p = none` models `Path.resolve` raising)
returns true iff both resolutions succeed and the resolved candidate
equals the resolved root or is a descendant of it (root a proper
component-prefix); whenever either resolution fails it returns false —
it is a total function, so it never raises. -/
theorem sandbox_containment_spec (res : AbsPath → Option AbsPath) (base target : AbsPath) :
    (is_path_safeR res base target = true ↔
      ∃ b t, res base = some b ∧ res target = some t ∧
        (t = b ∨ (listPre b t = true ∧ t ≠ b))) ∧
    (res base = none ∨ res target = none → is_path_safeR res base target = false) := by
  constructor
  · cases hb : res base with
    | none => simp [is_path_safeR, hb]
    | some b =>
      cases ht : res target with
      | none => simp [is_path_safeR, hb, ht]
      | some t =>
        simp only [is_path_safeR, hb, ht, Option.some.injEq]
        constructor
        · intro hpre
          by_cases hbt : t = b
          · exact ⟨b, t, rfl, rfl, Or.inl hbt⟩
          · exact ⟨b, t, rfl, rfl, Or.inr ⟨hpre, hbt⟩⟩
        · rintro ⟨b1, t1, rfl, rfl, (rfl | ⟨hpre, _⟩)⟩
          · exact listPre_refl _
          · exact hpre
  · intro h
    rcases h with h | h
    · simp [is_path_safeR, h]
    · cases hb : res base <;> simp [is_path_safeR, hb, h]

/-- C1 witness: a resolver that fails on the root makes the check
return false (fail closed). -/
theorem sandbox_containment_spec_witness :
    is_path_safeR (fun _ => none) ["ws"] ["ws", "a"] = false :=
  (sandbox_containment_spec (fun _ => none) ["ws"] ["ws", "a"]).2 (Or.inl rfl)

/-! ## Claim C3: the Basic-auth gate -/

/-- C3: with no password configured every request is allowed whatever
the header holds; requests under the static-asset path are always
allowed; otherwise the request is allowed exactly when the header is
present, carries the `Basic ` scheme, its payload decodes, and the
decoded `username:password` pair equals the configured credentials —
and every disallowed request is answered 401 with the
`WWW-Authenticate` challenge naming the realm (missing header, wrong
scheme, decoding failure, and credential mismatch alike). -/
theorem auth_dispatch_spec (pwd uname reqPath : String) (hdr : Option String)
    (decode : String → Option String) :
    (pwd = "" → dispatch pwd uname reqPath hdr decode = .allowed) ∧
    (startsWithStr reqPath "/static" = true →
      dispatch pwd uname reqPath hdr decode = .allowed) ∧
    (pwd ≠ "" → startsWithStr reqPath "/static" = false →
      ((dispatch pwd uname reqPath hdr decode = .allowed ↔
        ∃ h, hdr = some h ∧ startsWithStr h "Basic " = true ∧
          (decode (dropStr 6 h)).bind splitCred = some (uname, pwd)) ∧
       (dispatch pwd uname reqPath hdr decode ≠ .allowed →
        dispatch pwd uname reqPath hdr decode = .denied 401 authChallenge))) := by
  refine ⟨?_, ?_, ?_⟩
  · intro hp; rw [dispatch.eq_def, if_pos hp]
  · intro hs
    rw [dispatch.eq_def]
    by_cases hp : pwd = ""
    · rw [if_pos hp]
    · rw [if_neg hp, if_pos hs]
  · intro hp hs
    rw [dispatch.eq_def, if_neg hp, if_neg (by simp [hs])]
    cases hdr with
    | none =>
      dsimp only
      refine ⟨⟨(fun hcon => nomatch hcon), ?_⟩, fun _ => rfl⟩
      rintro ⟨h1, hh1, _⟩
      cases hh1
    | some h =>
      dsimp only
      by_cases hh0 : h = ""
      · rw [if_pos hh0]
        refine ⟨⟨(fun hcon => nomatch hcon), ?_⟩, fun _ => rfl⟩
        rintro ⟨h1, hh1, hb, _⟩
        obtain rfl : h = h1 := Option.some.inj hh1
        rw [hh0] at hb
        cases hb
      · rw [if_neg hh0]
        by_cases hb : startsWithStr h "Basic " = true
        · rw [if_neg (by simp [hb])]
          cases hd : decode (dropStr 6 h) with
          | none =>
            dsimp only
            refine ⟨⟨(fun hcon => nomatch hcon), ?_⟩, fun _ => rfl⟩
            rintro ⟨h1, hh1, _, hbind⟩
            obtain rfl : h = h1 := Option.some.inj hh1
            rw [hd] at hbind
            cases hbind
          | some cred =>
            dsimp only
            cases hc : splitCred cred with
            | none =>
              dsimp only
              refine ⟨⟨(fun hcon => nomatch hcon), ?_⟩, fun _ => rfl⟩
              rintro ⟨h1, hh1, _, hbind⟩
              obtain rfl : h = h1 := Option.some.inj hh1
              rw [hd] at hbind
              rw [show (some cred).bind splitCred = splitCred cred from rfl, hc] at hbind
              cases hbind
            | some up =>
              dsimp only
              by_cases hm : up.1 = uname ∧ up.2 = pwd
              · rw [if_pos hm]
                refine ⟨⟨fun _ => ⟨h, rfl, hb, ?_⟩, fun _ => rfl⟩, fun hcon => absurd rfl hcon⟩
                rw [hd, show (some cred).bind splitCred = splitCred cred from rfl, hc]
                exact congrArg some (Prod.ext_iff.2 ⟨hm.1, hm.2⟩)
              · rw [if_neg hm]
                refine ⟨⟨(fun hcon => nomatch hcon), ?_⟩, fun _ => rfl⟩
                rintro ⟨h1, hh1, _, hbind⟩
                obtain rfl : h = h1 := Option.some.inj hh1
                rw [hd, show (some cred).bind splitCred = splitCred cred from rfl, hc] at hbind
                have hup : up = (uname, pwd) := Option.some.inj hbind
                exact (hm ⟨by rw [hup], by rw [hup]⟩).elim
        · rw [if_pos (by simp [hb])]
          refine ⟨⟨(fun hcon => nomatch hcon), ?_⟩, fun _ => rfl⟩
          rintro ⟨h1, hh1, hb1, _⟩
          obtain rfl : h = h1 := Option.some.inj hh1
          exact (hb hb1).elim

/-- C3 witness: the four behaviours at concrete inputs: auth disabled,
static asset, matching credentials, mismatching credentials. -/
theorem auth_dispatch_spec_witness :
    dispatch "" "admin" "/api/config" none (fun _ => none) = .allowed ∧
    dispatch "secret" "admin" "/static/app.css" none (fun _ => none) = .allowed ∧
    dispatch "secret" "admin" "/api/config" (some "Basic x")
      (fun _ => some "admin:secret") = .allowed ∧
    dispatch "secret" "admin" "/api/config" (some "Basic x")
      (fun _ => some "admin:wrong") = .denied 401 authChallenge :=
  ⟨(auth_dispatch_spec "" "admin" "/api/config" none (fun _ => none)).1 rfl,
   (auth_dispatch_spec "secret" "admin" "/static/app.css" none (fun _ => none)).2.1 (by decide),
   ((auth_dispatch_spec "secret" "admin" "/api/config" (some "Basic x")
       (fun _ => some "admin:secret")).2.2 (by decide) (by decide)).1.mpr
     ⟨"Basic x", rfl, by decide, by decide⟩,
   ((auth_dispatch_spec "secret" "admin" "/api/config" (some "Basic x")
       (fun _ => some "admin:wrong")).2.2 (by decide) (by decide)).2 (by decide)⟩

/-! ## Claim C10: empty path fragments -/

/-- C10: `read_file`, `write_file`, `create_folder` and `delete_path`
each reject an empty (or absent) path fragment with a 400 bad-input
response — a constructor distinct from `accessDenied` and `notFound` —
returned before the sandbox check runs and with the filesystem exactly
as `get_workspace_root` left it (no operation-specific mutation);
`browse_files` instead treats the empty fragment as designating the
workspace root itself. -/
theorem empty_path_handling (fs : FS) (root : AbsPath) (pp cp : Option String)
    (hpp : pp.getD "" = "") :
    browse_files fs root pp =
      (browseTarget (ensureRootD fs root) root root, ensureRootD fs root) ∧
    read_file fs root pp = (.badRequest, ensureRootD fs root) ∧
    write_file fs root pp cp = (.badRequest, ensureRootD fs root) ∧
    create_folder fs root pp = (.badRequest, ensureRootD fs root) ∧
    delete_path fs root pp = (.badRequest, ensureRootD fs root) ∧
    ReadRes.badRequest.status = 400 ∧ WriteRes.badRequest.status = 400 ∧
    MkdirRes.badRequest.status = 400 ∧ DeleteRes.badRequest.status = 400 := by
  refine ⟨?_, ?_, ?_, ?_, ?_, rfl, rfl, rfl, rfl⟩
  · simp [browse_files, hpp]
  · simp [read_file, hpp]
  · simp [write_file, hpp]
  · simp [create_folder, hpp]
  · simp [delete_path, hpp]

/-- C10 witness: concrete empty-fragment requests. -/
theorem empty_path_handling_witness :
    delete_path ⟨[]⟩ ["ws"] (some "") = (.badRequest, ensureRootD ⟨[]⟩ ["ws"]) ∧
    browse_files ⟨[]⟩ ["ws"] (some "") =
      (browseTarget (ensureRootD ⟨[]⟩ ["ws"]) ["ws"] ["ws"], ensureRootD ⟨[]⟩ ["ws"]) :=
  ⟨(empty_path_handling ⟨[]⟩ ["ws"] (some "") (some "x") rfl).2.2.2.2.1,
   (empty_path_handling ⟨[]⟩ ["ws"] (some "") (some "x") rfl).1⟩

/-! ## Claim C2: traversal fragments -/

/-- C2 counterexample: the fragment `a/../b` contains the traversal
sequence `../`, yet `is_path_safe` accepts it — joining and resolving
keeps it inside the workspace — and `write_file` goes on to perform
filesystem I/O (the file appears).  So "every fragment containing a
traversal sequence is rejected" is false of the code; only fragments
whose resolution escapes the root are rejected. -/
theorem traversal_fragment_counterexample :
    strContains "a/../b" "../" = true ∧
    is_path_safe ["ws"] (resolvePath (joinFrag ["ws"] "a/../b")) = true ∧
    (write_file ⟨[]⟩ ["ws"] (some "a/../b") (some "x")).1 = .ok ["b"] ∧
    (write_file ⟨[]⟩ ["ws"] (some "a/../b") (some "x")).2.lookup ["ws", "b"]
      = some (.file "x") := by
  refine ⟨by decide, by decide, by decide, by decide⟩

/-- C2 (amended): for every fragment whose joined-and-resolved path
escapes the workspace root (`is_contained` false — e.g. `../secret`
from a non-root workspace), all five WorkspaceFileService operations
return `accessDenied` (403) and leave the filesystem exactly as
`get_workspace_root` left it: no operation I/O is performed. -/
theorem escape_denied (fs : FS) (root : AbsPath) (pp c : String)
    (hesc : is_path_safe root (resolvePath (joinFrag root pp)) = false) :
    browse_files fs root (some pp) = (.accessDenied, ensureRootD fs root) ∧
    read_file fs root (some pp) = (.accessDenied, ensureRootD fs root) ∧
    write_file fs root (some pp) (some c) = (.accessDenied, ensureRootD fs root) ∧
    create_folder fs root (some pp) = (.accessDenied, ensureRootD fs root) ∧
    delete_path fs root (some pp) = (.accessDenied, ensureRootD fs root) := by
  have hpp : pp ≠ "" := by
    intro h
    rw [h, joinFrag_empty, is_path_safe_self_resolved] at hesc
    cases hesc
  refine ⟨?_, ?_, ?_, ?_, ?_⟩
  · simp [browse_files, browseTarget, hpp, hesc]
  · simp [read_file, hpp, hesc]
  · simp [write_file, hpp, hesc]
  · simp [create_folder, hpp, hesc]
  · simp [delete_path, hpp, hesc]

/-- C2 (amended) witness: `../secret` escapes the root `["ws"]` and
every operation denies it. -/
theorem escape_denied_witness :
    is_path_safe ["ws"] (resolvePath (joinFrag ["ws"] "../secret")) = false ∧
    read_file ⟨[]⟩ ["ws"] (some "../secret") = (.accessDenied, ensureRootD ⟨[]⟩ ["ws"]) ∧
    write_file ⟨[]⟩ ["ws"] (some "../secret") (some "x")
      = (.accessDenied, ensureRootD ⟨[]⟩ ["ws"]) ∧
    delete_path ⟨[]⟩ ["ws"] (some "../secret") = (.accessDenied, ensureRootD ⟨[]⟩ ["ws"]) :=
  ⟨by decide,
   (escape_denied ⟨[]⟩ ["ws"] "../secret" "x" (by decide)).2.1,
   (escape_denied ⟨[]⟩ ["ws"] "../secret" "x" (by decide)).2.2.1,
   (escape_denied ⟨[]⟩ ["ws"] "../secret" "x" (by decide)).2.2.2.2⟩

/-! ## Claim C7: deleting the workspace root -/

/-- C7 counterexample: the empty fragment also designates the root
(the join of root and `""` resolves to the root itself), but
`delete_path` rejects it with 400 `badRequest` — not with the claimed
`Forbidden`/`AccessDenied` (403). -/
theorem delete_root_empty_counterexample :
    resolvePath (joinFrag ["ws"] "") = ["ws"] ∧
    (delete_path ⟨[]⟩ ["ws"] (some "")).1 = .badRequest ∧
    DeleteRes.badRequest ≠ DeleteRes.forbidden ∧
    DeleteRes.badRequest ≠ DeleteRes.accessDenied ∧
    DeleteRes.badRequest.status = 400 := by
  refine ⟨by decide, by decide, by decide, by decide, by decide⟩

/-- C7 (amended): for every NON-empty fragment whose joined-and-resolved
path equals the workspace root (e.g. `.` or `a/..`), `delete_path`
fails with 403 `forbidden` and removes nothing, whatever the prior
existence state of the root — `get_workspace_root` (re)creates the root
before the check, so the root is present and never deletable.  (The
empty fragment is instead rejected earlier with 400, see the
counterexample.)  `hroot` says root creation succeeds (no file blocks
the root chain). -/
theorem delete_root_forbidden (fs : FS) (root : AbsPath) (pp : String)
    (hroot : rootCreatable fs root = true)
    (hpp : pp ≠ "")
    (hres : resolvePath (joinFrag root pp) = root) :
    delete_path fs root (some pp) = (.forbidden, ensureRootD fs root) ∧
    DeleteRes.forbidden.status = 403 := by
  obtain ⟨fs1, hfs1⟩ : ∃ x, fs.mkdirp root = some x := Option.isSome_iff_exists.mp hroot
  have hens : ensureRootD fs root = fs1 := ensureRootD_eq hfs1
  have hdir : fs1.lookup root = some .dir := FS.mkdirp_dirs hfs1 root (self_mem_dirChain root)
  have hsafe : is_path_safe root root = true := by
    rw [is_path_safe_eq]; exact listPre_refl _
  refine ⟨?_, rfl⟩
  simp [delete_path, hpp, hres, hens, hsafe, hdir]

/-- C7 (amended) witness: fragment `.` resolves to the root and is
refused with 403 even though the root did not exist beforehand. -/
theorem delete_root_forbidden_witness :
    delete_path ⟨[]⟩ ["ws"] (some ".") = (.forbidden, ensureRootD ⟨[]⟩ ["ws"]) :=
  (delete_root_forbidden ⟨[]⟩ ["ws"] "." (by decide) (by decide) (by decide)).1

/-! ## Claim C9: a write request with no content field -/

/-- C9 counterexample: a directory already standing at the target makes
the content-less write request fail with a 500 (`IsADirectoryError`
from `write_text`), not succeed — so the claim's unrestricted
quantifier over in-sandbox non-empty fragments is false. -/
theorem write_missing_content_counterexample :
    is_path_safe ["ws"] (resolvePath (joinFrag ["ws"] "d")) = true ∧
    (write_file ⟨[(["ws", "d"], .dir)]⟩ ["ws"] (some "d") none).1 = .serverError := by
  refine ⟨by decide, by decide⟩

/-- C9 (amended): for every in-sandbox non-empty fragment at which no
directory stands and whose parent directories can be created (no file
blocks the chain), a write request whose body omits the `content` field
(`data.get("content", "")`) succeeds and writes the empty string —
truncating any existing file at that path rather than rejecting the
request. -/
theorem write_defaults_to_empty (fs fsm : FS) (root : AbsPath) (pp : String)
    (hpp : pp ≠ "")
    (hsafe : is_path_safe root (resolvePath (joinFrag root pp)) = true)
    (hmk : (ensureRootD fs root).mkdirp (resolvePath (joinFrag root pp)).dropLast = some fsm)
    (hnd : fsm.lookup (resolvePath (joinFrag root pp)) ≠ some .dir) :
    write_file fs root (some pp) none =
      (.ok (relTo (resolvePath (joinFrag root pp)) root),
       ⟨(resolvePath (joinFrag root pp), .file "") :: fsm.entries⟩) ∧
    (write_file fs root (some pp) none).2.lookup (resolvePath (joinFrag root pp))
      = some (.file "") := by
  have hwt : fsm.writeText (resolvePath (joinFrag root pp)) "" =
      some ⟨(resolvePath (joinFrag root pp), .file "") :: fsm.entries⟩ := by
    rw [FS.writeText]
    cases he : fsm.lookup (resolvePath (joinFrag root pp)) with
    | none => rfl
    | some e =>
      cases e with
      | dir => exact absurd he hnd
      | file c0 => rfl
  have h1 : write_file fs root (some pp) none =
      (.ok (relTo (resolvePath (joinFrag root pp)) root),
       ⟨(resolvePath (joinFrag root pp), .file "") :: fsm.entries⟩) := by
    simp [write_file, hpp, hsafe, hmk, hwt]
  refine ⟨h1, ?_⟩
  rw [h1]
  exact lookupEnt_cons_self ..

/-- C9 (amended) witness: omitting the content truncates an existing
file to empty content. -/
theorem write_defaults_to_empty_witness :
    write_file ⟨[(["ws", "f"], .file "old"), (["ws"], .dir), ([], .dir)]⟩ ["ws"]
        (some "f") none
      = (.ok ["f"],
         ⟨[(["ws", "f"], .file ""), (["ws", "f"], .file "old"), (["ws"], .dir), ([], .dir)]⟩) ∧
    (write_file ⟨[(["ws", "f"], .file "old"), (["ws"], .dir), ([], .dir)]⟩ ["ws"]
        (some "f") none).2.lookup ["ws", "f"] = some (.file "") :=
  write_defaults_to_empty ⟨[(["ws", "f"], .file "old"), (["ws"], .dir), ([], .dir)]⟩
    ⟨[(["ws", "f"], .file "old"), (["ws"], .dir), ([], .dir)]⟩ ["ws"] "f"
    (by decide) (by decide) (by decide) (by decide)

/-! ## Claim C8: write-then-read round trip -/

theorem univNL_cons_ne {c : Char} (rest : List Char) (hc : c ≠ '\r') :
    univNL (c :: rest) = c :: univNL rest := by
  cases rest with
  | nil => simp [univNL, hc]
  | cons d rest2 => simp [univNL, hc]

theorem univNL_no_cr {cs : List Char} (h : '\r' ∉ cs) : univNL cs = cs := by
  induction cs with
  | nil => rfl
  | cons c rest ih =>
    have hc : c ≠ '\r' := fun hcc => h (by rw [hcc]; exact List.mem_cons_self _ _)
    rw [univNL_cons_ne rest hc, ih (fun hr => h (List.mem_cons_of_mem c hr))]

theorem univNLStr_no_cr {s : String} (h : '\r' ∉ s.data) : univNLStr s = s := by
  rw [univNLStr, univNL_no_cr h]

theorem FS.mkdirp_pres_dir {fs fs' : FS} {p r : AbsPath}
    (hd : fs.lookup r = some .dir) (h : fs.mkdirp p = some fs') :
    fs'.lookup r = some .dir :=
  FS.mkdirList_pres_dir hd h

/-- C8 counterexample: contents are not byte-faithful through the round
trip.  `Path.write_text` stores `"a\rb"` as is (POSIX `os.linesep` is
`\n`), but `Path.read_text` opens the file in universal-newline mode
and hands back `"a\nb"` — not the written content. -/
theorem write_read_cr_counterexample :
    (write_file ⟨[]⟩ ["ws"] (some "f.txt") (some "a\rb")).1 = .ok ["f.txt"] ∧
    (read_file (write_file ⟨[]⟩ ["ws"] (some "f.txt") (some "a\rb")).2 ["ws"]
        (some "f.txt")).1.getContent = some "a\nb" ∧
    "a\nb" ≠ "a\rb" := by
  refine ⟨by decide, by decide, by decide⟩

/-- C8 (amended): whenever `write_file` succeeds on an in-sandbox
non-empty fragment (the target is not an existing directory and no
existing file blocks a parent directory) with carriage-return-free
content, the subsequent `read_file` of the same fragment succeeds,
returns exactly the written content with its byte size, and leaves the
filesystem unchanged.  (For content containing `\r` the read returns
the universal-newline translation instead, see the counterexample.)
`hroot` says the workspace-root chain is creatable. -/
theorem write_read_roundtrip (fs fs2 : FS) (root : AbsPath) (pp c : String) (rel : AbsPath)
    (hroot : rootCreatable fs root = true)
    (hw : write_file fs root (some pp) (some c) = (.ok rel, fs2))
    (hcr : '\r' ∉ c.data) :
    read_file fs2 root (some pp) = (.ok c rel (utf8Len c), fs2) := by
  obtain ⟨fs1, hfs1⟩ : ∃ x, fs.mkdirp root = some x := Option.isSome_iff_exists.mp hroot
  have hens : ensureRootD fs root = fs1 := ensureRootD_eq hfs1
  rw [write_file, hens] at hw
  simp only [Option.getD_some] at hw
  by_cases hpp : pp = ""
  · rw [if_pos hpp] at hw
    simp at hw
  · rw [if_neg hpp] at hw
    by_cases hsafe : is_path_safe root (resolvePath (joinFrag root pp)) = true
    · rw [if_neg (by simp [hsafe])] at hw
      cases hmk : fs1.mkdirp (resolvePath (joinFrag root pp)).dropLast with
      | none => rw [hmk] at hw; simp at hw
      | some fsm =>
        rw [hmk] at hw
        dsimp only at hw
        cases hwt : fsm.writeText (resolvePath (joinFrag root pp)) c with
        | none => rw [hwt] at hw; simp at hw
        | some fs3 =>
          rw [hwt] at hw
          dsimp only at hw
          have hrel : relTo (resolvePath (joinFrag root pp)) root = rel := by
            have := congrArg Prod.fst hw
            simpa using this
          have hfs : fs3 = fs2 := by
            have := congrArg Prod.snd hw
            simpa using this
          obtain ⟨hnotdir, hfs3⟩ := FS.writeText_some hwt
          have hdirs1 : ∀ q ∈ dirChain root, fs1.lookup q = some .dir :=
            FS.mkdirp_dirs hfs1
          have hdirsm : ∀ q ∈ dirChain root, fsm.lookup q = some .dir :=
            fun q hq => FS.mkdirp_pres_dir (hdirs1 q hq) hmk
          have htnd : resolvePath (joinFrag root pp) ∉ dirChain root :=
            fun hmem => hnotdir (hdirsm _ hmem)
          have hdirs2 : ∀ q ∈ dirChain root, fs2.lookup q = some .dir := by
            intro q hq
            rw [← hfs, hfs3, FS.lookup,
              lookupEnt_cons_ne _ _ (fun hqt => htnd (by rw [← hqt]; exact hq))]
            exact hdirsm q hq
          have hens2 : ensureRootD fs2 root = fs2 :=
            ensureRootD_eq (FS.mkdirp_noop hdirs2)
          have hlook : fs2.lookup (resolvePath (joinFrag root pp)) = some (.file c) := by
            rw [← hfs, hfs3]
            exact lookupEnt_cons_self ..
          rw [read_file, hens2, Option.getD_some, if_neg hpp,
            if_neg (by simp [hsafe]), hlook]
          dsimp only
          rw [univNLStr_no_cr hcr, hrel]
    · have hsf : is_path_safe root (resolvePath (joinFrag root pp)) = false :=
        Bool.not_eq_true _ ▸ Bool.of_not_eq_true hsafe
      rw [if_pos (by simp [hsf])] at hw
      simp at hw

/-- C8 (amended) witness: writing `"hello"` to `a/f.txt` (creating the
intermediate directory `a/`) and reading it back returns `"hello"`. -/
theorem write_read_roundtrip_witness :
    read_file (write_file ⟨[]⟩ ["ws"] (some "a/f.txt") (some "hello")).2 ["ws"]
        (some "a/f.txt")
      = (.ok "hello" ["a", "f.txt"] 5,
         (write_file ⟨[]⟩ ["ws"] (some "a/f.txt") (some "hello")).2) :=
  write_read_roundtrip ⟨[]⟩ (write_file ⟨[]⟩ ["ws"] (some "a/f.txt") (some "hello")).2
    ["ws"] "a/f.txt" "hello" ["a", "f.txt"] (by decide) (by decide) (by decide)

end SleeplessAgent
